import Mathlib

/-!
Verification development for the hollaex exchange client
(request signing, canonical URL building, and the WebSocket
subscription session).  The definitions below are a shallow embedding of
`src/index.ts`: each Lean definition transcribes the corresponding
TypeScript function; external libraries (`crypto`, `JSON`, the wire
transport) are modelled at their boundary — the HMAC is an abstract
function parameter and a request body is represented by its JSON
serialization text.
-/

namespace Hollaex

/-- JavaScript-style values that can appear as query-string parameters
in this client (strings, numbers, booleans).  `Option JsVal` models a
possibly-`undefined` property. -/
inductive JsVal where
  | str (s : String)
  | num (n : Int)
  | bool (b : Bool)
deriving DecidableEq, Repr

/-- `String(value)` coercion used by `qs` when serializing a value. -/
def jsValToString : JsVal → String
  | .str s => s
  | .num n => toString n
  | .bool b => if b then "true" else "false"

/-- A parameters object: keys in insertion order, each value possibly
`undefined` (`none`). -/
abbrev QueryParams := List (String × Option JsVal)

/-- Substring occurrence over character lists: `needle` occurs in the
haystack at some position (an empty needle always occurs). -/
def containsSub (needle : List Char) : List Char → Bool
  | [] => needle.isEmpty
  | c :: rest => needle.isPrefixOf (c :: rest) || containsSub needle rest

/-- `s.includes(sub)` of JavaScript. -/
def strIncludes (s sub : String) : Bool :=
  containsSub sub.data s.data

/-- Helper of JavaScript `s.split(sep)` for a one-character separator:
split a character list at every separator, keeping empty groups. -/
def splitCharList (sep : Char) (cs : List Char) : List (List Char) :=
  cs.foldr (fun c acc =>
    match acc with
    | [] => [[c]]
    | g :: gs => if c = sep then [] :: g :: gs else (c :: g) :: gs) [[]]

/-- JavaScript `s.split(sep)` for a one-character separator. -/
def jsSplit (s : String) (sep : Char) : List String :=
  (splitCharList sep s.data).map String.mk

/-- Word separator for lodash `_.words` restricted to ASCII input:
anything that is not a letter or a digit. -/
def isWordSep (c : Char) : Bool :=
  !(c.isUpper || c.isLower || c.isDigit)

/-- Word boundary of lodash `_.words` between adjacent ASCII
alphanumeric characters `p` and `c` (with one character of lookahead):
lower→upper, digit→letter, letter→digit, and upper→upper when the
following character is lower (the FOOBar → FOO/Bar rule). -/
def isBoundary (p c : Char) (next : Option Char) : Bool :=
  (p.isLower && c.isUpper) ||
  (p.isDigit && (c.isUpper || c.isLower)) ||
  ((p.isUpper || p.isLower) && c.isDigit) ||
  (p.isUpper && c.isUpper &&
    (match next with
     | some n => n.isLower
     | none => false))

/-- Core of lodash `_.words` on ASCII input: split a character list into
words, dropping separators; `acc` holds the current word reversed. -/
def wordsCore : List Char → List Char → List (List Char)
  | [], acc => if acc.isEmpty then [] else [acc.reverse]
  | c :: rest, acc =>
    if isWordSep c then
      (if acc.isEmpty then [] else [acc.reverse]) ++ wordsCore rest []
    else
      match acc with
      | [] => wordsCore rest [c]
      | p :: _ =>
        if isBoundary p c rest.head? then
          acc.reverse :: wordsCore rest [c]
        else
          wordsCore rest (c :: acc)

/-- lodash `_.snakeCase` on ASCII input: the words of the string,
lower-cased and joined with underscores. -/
def snakeCase (s : String) : String :=
  String.intercalate "_" ((wordsCore s.data []).map (fun w => String.mk (w.map Char.toLower)))

/-- `_.mapKeys(params, (value, key) => _.snakeCase(key))` — every key is
snake-cased before serialization.  (The client's parameter objects never
have two keys with the same snake-cased form, so a plain map is exact.) -/
def mapKeysSnake (ps : QueryParams) : QueryParams :=
  ps.map (fun p => (snakeCase p.1, p.2))

/-- UTF-8 bytes of a character, as natural numbers. -/
def utf8Bytes (c : Char) : List Nat :=
  let n := c.toNat
  if n < 128 then [n]
  else if n < 2048 then [192 + n / 64, 128 + n % 64]
  else if n < 65536 then [224 + n / 4096, 128 + (n / 64) % 64, 128 + n % 64]
  else [240 + n / 262144, 128 + (n / 4096) % 64, 128 + (n / 64) % 64, 128 + n % 64]

/-- RFC 3986 unreserved byte (kept verbatim by the `qs` encoder):
ASCII letters, digits, `-`, `.`, `_`, `~`. -/
def isUnreservedByte (b : Nat) : Bool :=
  (65 ≤ b && b ≤ 90) || (97 ≤ b && b ≤ 122) || (48 ≤ b && b ≤ 57) ||
  b == 45 || b == 46 || b == 95 || b == 126

/-- Upper-case hexadecimal digit of a value below 16. -/
def hexDigit (n : Nat) : Char :=
  if n < 10 then Char.ofNat (48 + n) else Char.ofNat (55 + n)

/-- Percent-encoding used by `qs.stringify` (RFC 3986 format): every
byte of the UTF-8 encoding that is not unreserved becomes `%HH`. -/
def pctEncode (s : String) : String :=
  String.mk (List.flatten (s.data.map (fun c =>
    List.flatten ((utf8Bytes c).map (fun b =>
      if isUnreservedByte b then [Char.ofNat b]
      else ['%', hexDigit (b / 16), hexDigit (b % 16)])))))

/-- One serialized `key=value` pair of `qs.stringify`. -/
def qsPair (k : String) (v : JsVal) : String :=
  pctEncode k ++ "=" ++ pctEncode (jsValToString v)

/-- `qs.stringify(params)`: pairs whose value is `undefined` are
omitted; the remaining pairs are rendered in order, joined with `&`. -/
def qsStringify (ps : QueryParams) : String :=
  String.intercalate "&" (ps.filterMap (fun p => p.2.map (fun v => qsPair p.1 v)))

/-- The `addQueryPrefix: true` option of `qs.stringify`: prepend `?`
only when the serialized string is non-empty. -/
def qsAddPrefix (s : String) : String :=
  if s = "" then "" else "?" ++ s

/-- The immutable client configuration fixed by the constructor. -/
structure ClientConfig where
  apiUrl : String
  apiKey : String
  secret : String
  expires : Int
deriving DecidableEq, Repr

/-- JavaScript `x || d` on an optional string: `undefined` and the empty
string both fall back to the default. -/
def orDefaultStr (o : Option String) (d : String) : String :=
  match o with
  | some s => if s = "" then d else s
  | none => d

/-- JavaScript `x || d` on an optional number: `undefined` and `0` both
fall back to the default. -/
def orDefaultInt (o : Option Int) (d : Int) : Int :=
  match o with
  | some n => if n = 0 then d else n
  | none => d

/-- The `Client` constructor: defaults applied with JavaScript
truthiness (`params.apiUrl || 'https://api.hollaex.com/v2'`, etc.). -/
def mkClient (apiUrl apiKey secret : Option String) (expires : Option Int) : ClientConfig :=
  { apiUrl := orDefaultStr apiUrl "https://api.hollaex.com/v2"
    apiKey := orDefaultStr apiKey ""
    secret := orDefaultStr secret ""
    expires := orDefaultInt expires 60 }

/-- A client built with an empty configuration object (all defaults). -/
def defaultCfg : ClientConfig := mkClient none none none none

/-- `this.wsUrl`, built in the constructor as
`wss://` + `apiUrl.split('/')[2]` + `/stream` (JavaScript renders a
missing index as the text `undefined`). -/
def wsUrl (cfg : ClientConfig) : String :=
  "wss://" ++ ((jsSplit cfg.apiUrl '/').getD 2 "undefined") ++ "/stream"

/-- `getFullUrl(path, params)`: snake-cases the parameter keys and
appends the `qs` query string (with `?` prefix) when a params object is
present; the base is the streaming URL when the path contains
`/stream`, otherwise the REST API URL. -/
def getFullUrl (cfg : ClientConfig) (path : String) (params : Option QueryParams) : String :=
  (if strIncludes path "/stream" then wsUrl cfg else cfg.apiUrl) ++ path ++
    (match params with
     | some ps => qsAddPrefix (qsStringify (mapKeysSnake ps))
     | none => "")

/-- The HTTP methods the client uses, plus the reserved pseudo-method
`connect` used for streaming authentication. -/
inductive Method where
  | get | post | put | delete | connect
deriving DecidableEq, Repr

/-- `method.toUpperCase()`. -/
def methodUpper : Method → String
  | .get => "GET"
  | .post => "POST"
  | .put => "PUT"
  | .delete => "DELETE"
  | .connect => "CONNECT"

/-- A request to be signed.  The body object is represented by its JSON
serialization text (JSON encoding is an external collaborator); a
present body object is always truthy in the source's
`opts?.data ? JSON.stringify(opts.data) : ''` test. -/
structure RequestConfig where
  method : Method
  path : String
  params : Option QueryParams
  data : Option String
deriving DecidableEq, Repr

/-- `createHmacSignature(method, path, expires, opts)`: the hex HMAC —
modelled by the abstract function `hmac secret message` — of
`METHOD + fullUrl + expires + body-or-empty`. -/
def createHmacSignature (hmac : String → String → String) (cfg : ClientConfig)
    (method : Method) (path : String) (expires : Int)
    (params : Option QueryParams) (data : Option String) : String :=
  hmac cfg.secret
    (methodUpper method ++ getFullUrl cfg path params ++ toString expires ++ data.getD "")

/-- The emitted signature header set. -/
structure AuthHeaders where
  apiKey : String
  apiExpires : Int
  apiSignature : String
deriving DecidableEq, Repr

/-- `generateAuthHeaders(requestData)`: computes
`expires = moment().unix() + this.expires` once (`now` is the fixed
current Unix time) and emits the three auth headers. -/
def generateAuthHeaders (hmac : String → String → String) (cfg : ClientConfig)
    (now : Int) (rq : RequestConfig) : AuthHeaders :=
  let expires := now + cfg.expires
  { apiKey := cfg.apiKey
    apiExpires := expires
    apiSignature := createHmacSignature hmac cfg rq.method rq.path expires rq.params rq.data }

/-! ## WebSocket session -/

/-- The error thrown by `subscribe`, `unsubscribe` and `disconnect`
when the socket is not open (`new Error('Websocket not connected')`,
the spec's `NotConnectedError`).  A thrown error leaves the client
state unchanged: in the source the connectivity guard precedes every
mutation. -/
inductive ClientError where
  | notConnected
deriving DecidableEq, Repr

/-- One client→server wire frame
(`JSON.stringify(\x7b op, args \x7d)`; the JSON text encoding is
external, the frame content is what matters). -/
structure Frame where
  op : String
  args : List String
deriving DecidableEq, Repr

/-- The mutable session state of the client:
`wsEvents` is the desired subscription set (a JS array),
`wsReconnect` the automatic-reconnection flag,
`initialConnection` the replay marker set by `wsConnect` and cleared by
the open handler, and `connected` models
`wsConnected()` (`ws` exists and `ws.readyState === OPEN`). -/
structure WsState where
  wsEvents : List String
  wsReconnect : Bool
  initialConnection : Bool
  connected : Bool
deriving DecidableEq, Repr

/-- The topic part of an event string: `event.split(':')[0]`. -/
def topicOf (e : String) : String :=
  (jsSplit e ':').headD ""

/-- The symbol part of an event string: `event.split(':')[1]`. -/
def symbolOf (e : String) : Option String :=
  (jsSplit e ':').get? 1

/-- The symbol part when it is truthy in JavaScript (present and
non-empty); the source's `if (symbol)` test. -/
def truthySymbol (e : String) : Option String :=
  match symbolOf e with
  | some s => if s = "" then none else some s
  | none => none

/-- Helper of lodash `_.union`: keep the first occurrence of every
element, tracking what has been seen. -/
def dedupAux : List String → List String → List String
  | [], _ => []
  | x :: rest, seen =>
    if seen.contains x then dedupAux rest seen
    else x :: dedupAux rest (x :: seen)

/-- `_.union(xs, [e])`: the unique values of the concatenation, first
occurrences kept in order. -/
def lodashUnion (xs : List String) (e : String) : List String :=
  dedupAux (xs ++ [e]) []

/-- The `if (!this.initialConnection) this.wsEvents = _.union(...)` step
that follows each sent subscribe frame. -/
def maybeUnion (st : WsState) (e : String) : WsState :=
  if st.initialConnection then st
  else { st with wsEvents := lodashUnion st.wsEvents e }

/-- One iteration of the `subscribe` loop body for a single event,
returning the updated state and the frames sent (the connectivity guard
lives in `subscribe` itself). -/
def subscribeOne (st : WsState) (e : String) : WsState × List Frame :=
  if !(st.wsEvents.contains e) || st.initialConnection then
    if topicOf e = "orderbook" ∨ topicOf e = "trade" then
      match truthySymbol e with
      | some s =>
        if !(st.wsEvents.contains (topicOf e)) then
          (maybeUnion st e, [⟨"subscribe", [topicOf e ++ ":" ++ s]⟩])
        else (st, [])
      | none => (maybeUnion st e, [⟨"subscribe", [topicOf e]⟩])
    else if topicOf e = "order" ∨ topicOf e = "wallet" ∨ topicOf e = "deposit" then
      (maybeUnion st e, [⟨"subscribe", [topicOf e]⟩])
    else (st, [])
  else (st, [])

/-- The `subscribe` loop over the event list, threading the state and
concatenating the sent frames in order. -/
def subscribeList (st : WsState) : List String → WsState × List Frame
  | [] => (st, [])
  | e :: rest =>
    let r := subscribeOne st e
    let r2 := subscribeList r.1 rest
    (r2.1, r.2 ++ r2.2)

/-- `subscribe(events)`: throws when the socket is not open, otherwise
runs the loop. -/
def subscribe (st : WsState) (es : List String) : Except ClientError (WsState × List Frame) :=
  if st.connected then .ok (subscribeList st es) else .error .notConnected

/-- One iteration of the `unsubscribe` loop body for a single event. -/
def unsubscribeOne (st : WsState) (e : String) : WsState × List Frame :=
  if st.wsEvents.contains e then
    if topicOf e = "orderbook" ∨ topicOf e = "trade" then
      ({ st with wsEvents := st.wsEvents.filter (fun x => x != e) },
        [match truthySymbol e with
         | some s => ⟨"unsubscribe", [topicOf e ++ ":" ++ s]⟩
         | none => ⟨"unsubscribe", [topicOf e]⟩])
    else if topicOf e = "order" ∨ topicOf e = "wallet" ∨ topicOf e = "deposit" then
      ({ st with wsEvents := st.wsEvents.filter (fun x => x != e) },
        [⟨"unsubscribe", [topicOf e]⟩])
    else (st, [])
  else (st, [])

/-- The `unsubscribe` loop over the event list. -/
def unsubscribeList (st : WsState) : List String → WsState × List Frame
  | [] => (st, [])
  | e :: rest =>
    let r := unsubscribeOne st e
    let r2 := unsubscribeList r.1 rest
    (r2.1, r.2 ++ r2.2)

/-- `unsubscribe(events)`: throws when the socket is not open,
otherwise runs the loop. -/
def unsubscribe (st : WsState) (es : List String) : Except ClientError (WsState × List Frame) :=
  if st.connected then .ok (unsubscribeList st es) else .error .notConnected

/-- `disconnect()`: only valid while connected; disables automatic
reconnection and requests a graceful close (the close event itself is
delivered later, see `onClose`). -/
def disconnect (st : WsState) : Except ClientError WsState :=
  if st.connected then .ok { st with wsReconnect := false }
  else .error .notConnected

/-- The `close` event handler of `wsConnect`: the socket is discarded
in both branches (`this.ws = undefined`); the returned flag records
whether a reconnect timer (`setTimeout(() => wsConnect(this.wsEvents))`)
was scheduled, which happens exactly when `wsReconnect` is set. -/
def onClose (st : WsState) : WsState × Bool :=
  ({ st with connected := false }, st.wsReconnect)

/-- The state effect of `wsConnect(events)`: replay marker and
reconnection flag set, desired set overwritten with the given list, a
fresh socket created (not yet open). -/
def wsConnectStep (_st : WsState) (events : List String) : WsState :=
  { wsEvents := events
    wsReconnect := true
    initialConnection := true
    connected := false }

/-- `hasCredentials`: the source's `if (this.apiKey && this.secret)`
truthiness test. -/
def hasCredentials (cfg : ClientConfig) : Bool :=
  cfg.apiKey != "" && cfg.secret != ""

/-- The query parameters carrying the signature header set, in the
order `qs.stringify` serializes the headers object. -/
def authHeaderParams (h : AuthHeaders) : QueryParams :=
  [("api-key", some (.str h.apiKey)),
   ("api-expires", some (.num h.apiExpires)),
   ("api-signature", some (.str h.apiSignature))]

/-- The connection URL built by `wsConnect`: when credentials are
configured the auth headers for the pseudo-method `connect` on path
`/stream` are appended — note the source writes
`url + '?' + qs.stringify(headers, addQueryPrefix)` so the emitted text
contains a double question mark. -/
def wsConnectUrl (hmac : String → String → String) (cfg : ClientConfig) (now : Int) : String :=
  if hasCredentials cfg then
    wsUrl cfg ++ "?" ++
      qsAddPrefix (qsStringify (authHeaderParams
        (generateAuthHeaders hmac cfg now ⟨.connect, "/stream", none, none⟩)))
  else wsUrl cfg

/-- The `open` event handler: the socket is now open; if the desired
set is non-empty it is replayed through `subscribe` while the
`initialConnection` marker is still set, then the marker is cleared
(the heartbeat arming has no effect on the modelled state). -/
def onOpen (st : WsState) : WsState × List Frame :=
  let st0 := { st with connected := true }
  let r := if st0.wsEvents.length > 0 then subscribeList st0 st0.wsEvents else (st0, [])
  ({ r.1 with initialConnection := false }, r.2)

/-- A lost connection followed by the scheduled reconnect: the close
handler fires, the timer calls `wsConnect(this.wsEvents)`, and the new
socket opens.  Returns the state after the open handler and the frames
sent by the replay. -/
def reconnectReplay (st : WsState) : WsState × List Frame :=
  let c := onClose st
  let st1 := wsConnectStep c.1 c.1.wsEvents
  onOpen st1

/-- The frames the initial-connection replay emits for one desired
entry, as a function of the desired set: at most one frame per entry;
none for a symbol-scoped market topic whose unscoped topic is also
desired, and none for an unrecognized topic name. -/
def replayFrames (ws : List String) (e : String) : List Frame :=
  if topicOf e = "orderbook" ∨ topicOf e = "trade" then
    match truthySymbol e with
    | some s =>
      if ws.contains (topicOf e) then [] else [⟨"subscribe", [topicOf e ++ ":" ++ s]⟩]
    | none => [⟨"subscribe", [topicOf e]⟩]
  else if topicOf e = "order" ∨ topicOf e = "wallet" ∨ topicOf e = "deposit" then
    [⟨"subscribe", [topicOf e]⟩]
  else []

/-- A recognized topic name of the protocol: the five names the
subscription registry classifies (`orderbook`, `trade` market-scoped;
`order`, `wallet`, `deposit` account-scoped). -/
def knownTopic (t : String) : Bool :=
  t = "orderbook" || t = "trade" || t = "order" || t = "wallet" || t = "deposit"

/-- The single wire frame `unsubscribe` sends for a present event:
market-scoped topics keep their truthy symbol, account-scoped topics
(and market topics without a truthy symbol) send the bare topic. -/
def unsubFrameFor (e : String) : Frame :=
  if topicOf e = "orderbook" ∨ topicOf e = "trade" then
    match truthySymbol e with
    | some s => ⟨"unsubscribe", [topicOf e ++ ":" ++ s]⟩
    | none => ⟨"unsubscribe", [topicOf e]⟩
  else ⟨"unsubscribe", [topicOf e]⟩

/-- The URL the signature of `cancelOrders` is computed over: the
signing call passes path `/order/all` with the `symbol` parameter
(`undefined` when `opts` is absent). -/
def cancelOrdersSignedUrl (cfg : ClientConfig) (symbol : Option String) : String :=
  getFullUrl cfg "/order/all" (some [("symbol", symbol.map JsVal.str)])

/-- The URL of the HTTP request `cancelOrders` actually sends:
`instance.delete('/order', \x7b params \x7d)` resolves against the
configured base URL with the same parameter serialization. -/
def cancelOrdersSentUrl (cfg : ClientConfig) (symbol : Option String) : String :=
  getFullUrl cfg "/order" (some [("symbol", symbol.map JsVal.str)])

/-! ## Helper lemmas -/

theorem str_append_empty (s : String) : s ++ "" = s := String.append_empty s

theorem dedupAux_nodup (l : List String) : ∀ seen : List String,
    (dedupAux l seen).Nodup ∧ ∀ x ∈ dedupAux l seen, x ∉ seen := by
  induction l with
  | nil => intro seen; simp [dedupAux]
  | cons a rest ih =>
    intro seen
    by_cases hc : a ∈ seen
    · simpa [dedupAux, hc] using ih seen
    · have hcb : seen.contains a = false := by simpa using hc
      simp only [dedupAux, hcb, Bool.false_eq_true, if_false]
      refine ⟨List.nodup_cons.mpr ⟨?_, (ih (a :: seen)).1⟩, ?_⟩
      · intro hmem
        exact absurd (List.mem_cons_self a seen) ((ih (a :: seen)).2 a hmem)
      · intro x hx
        rcases List.mem_cons.mp hx with rfl | hx'
        · exact hc
        · intro hxs
          exact ((ih (a :: seen)).2 x hx') (List.mem_cons_of_mem a hxs)

theorem lodashUnion_nodup (xs : List String) (e : String) : (lodashUnion xs e).Nodup :=
  (dedupAux_nodup (xs ++ [e]) []).1

theorem maybeUnion_nodup (st : WsState) (e : String) (h : st.wsEvents.Nodup) :
    (maybeUnion st e).wsEvents.Nodup := by
  unfold maybeUnion
  split
  · exact h
  · exact lodashUnion_nodup _ _

theorem subscribeOne_fst_nodup (st : WsState) (e : String) (h : st.wsEvents.Nodup) :
    (subscribeOne st e).1.wsEvents.Nodup := by
  unfold subscribeOne
  repeat' split
  all_goals first
    | exact h
    | exact maybeUnion_nodup st e h

theorem unsubscribeOne_fst_nodup (st : WsState) (e : String) (h : st.wsEvents.Nodup) :
    (unsubscribeOne st e).1.wsEvents.Nodup := by
  unfold unsubscribeOne
  repeat' split
  all_goals first
    | exact h
    | exact h.filter _

theorem subscribeList_fst_nodup (es : List String) : ∀ st : WsState, st.wsEvents.Nodup →
    (subscribeList st es).1.wsEvents.Nodup := by
  induction es with
  | nil => intro st h; exact h
  | cons e rest ih =>
    intro st h
    exact ih _ (subscribeOne_fst_nodup st e h)

theorem unsubscribeList_fst_nodup (es : List String) : ∀ st : WsState, st.wsEvents.Nodup →
    (unsubscribeList st es).1.wsEvents.Nodup := by
  induction es with
  | nil => intro st h; exact h
  | cons e rest ih =>
    intro st h
    exact ih _ (unsubscribeOne_fst_nodup st e h)

theorem subscribeOne_initial (st : WsState) (e : String) (h : st.initialConnection = true) :
    subscribeOne st e = (st, replayFrames st.wsEvents e) := by
  unfold subscribeOne replayFrames maybeUnion
  simp only [h, Bool.or_true, if_true]
  split
  · cases htr : truthySymbol e
    all_goals simp [htr]
    all_goals split <;> rfl
  · split <;> simp

theorem subscribeList_initial (st : WsState) (h : st.initialConnection = true) :
    ∀ es : List String,
    subscribeList st es = (st, List.flatten (es.map (replayFrames st.wsEvents))) := by
  intro es
  induction es with
  | nil => rfl
  | cons e rest ih =>
    simp only [subscribeList, subscribeOne_initial st e h, ih, List.map_cons,
      List.flatten_cons]

theorem qsStringify_filter_defined (ps : QueryParams) :
    qsStringify (ps.filter (fun p => p.2.isSome)) = qsStringify ps := by
  unfold qsStringify
  congr 1
  induction ps with
  | nil => rfl
  | cons a rest ih =>
    cases h : a.2 <;> simp [List.filter_cons, List.filterMap_cons, h, ih]

/-- Membership in the deduplication helper: an element appears in the
result exactly when it appears in the input and was not already seen. -/
theorem mem_dedupAux (l : List String) : ∀ (seen : List String) (x : String),
    x ∈ dedupAux l seen ↔ (x ∈ l ∧ x ∉ seen) := by
  induction l with
  | nil => intro seen x; simp [dedupAux]
  | cons a rest ih =>
    intro seen x
    by_cases hc : a ∈ seen
    · simp only [dedupAux]
      rw [if_pos (List.elem_iff.mpr hc), ih seen x]
      constructor
      · rintro ⟨hx, hs⟩
        exact ⟨List.mem_cons_of_mem a hx, hs⟩
      · rintro ⟨hx, hs⟩
        rcases List.mem_cons.mp hx with rfl | hx2
        · exact absurd hc hs
        · exact ⟨hx2, hs⟩
    · have hcb : seen.contains a = false := by
        cases hb : seen.contains a
        · rfl
        · exact absurd (List.elem_iff.mp hb) hc
      simp only [dedupAux]
      rw [if_neg (by rw [hcb]; exact Bool.false_ne_true)]
      simp only [List.mem_cons, ih (a :: seen) x]
      constructor
      · rintro (rfl | ⟨hx, hs⟩)
        · exact ⟨Or.inl rfl, hc⟩
        · exact ⟨Or.inr hx, fun h2 => hs (Or.inr h2)⟩
      · rintro ⟨hd, hs⟩
        by_cases hxa : x = a
        · exact Or.inl hxa
        · rcases hd with rfl | hx
          · exact Or.inl rfl
          · refine Or.inr ⟨hx, fun h2 => ?_⟩
            rcases h2 with h3 | h3
            · exact hxa h3
            · exact hs h3

/-- Membership in `_.union(xs, [e])`. -/
theorem mem_lodashUnion (xs : List String) (e x : String) :
    x ∈ lodashUnion xs e ↔ x ∈ xs ∨ x = e := by
  unfold lodashUnion
  rw [mem_dedupAux]
  simp

/-- Two lists with the same members give the same `contains` answers. -/
theorem contains_congr (l1 l2 : List String)
    (hm : ∀ x, x ∈ l1 ↔ x ∈ l2) (a : String) :
    l1.contains a = l2.contains a := by
  by_cases h : a ∈ l1
  · have e1 : l1.contains a = true := List.elem_iff.mpr h
    have e2 : l2.contains a = true := List.elem_iff.mpr ((hm a).mp h)
    rw [e1, e2]
  · have h2 : a ∉ l2 := fun hx => h ((hm a).mpr hx)
    have e1 : l1.contains a = false := by
      cases hb : l1.contains a
      · rfl
      · exact absurd (List.elem_iff.mp hb) h
    have e2 : l2.contains a = false := by
      cases hb : l2.contains a
      · rfl
      · exact absurd (List.elem_iff.mp hb) h2
    rw [e1, e2]

/-- One subscribe iteration never changes the replay marker. -/
theorem subscribeOne_keeps_initial (st : WsState) (e : String) :
    (subscribeOne st e).1.initialConnection = st.initialConnection := by
  unfold subscribeOne maybeUnion
  repeat' split
  all_goals rfl

/-- One subscribe iteration is determined by the desired set's members
(not their order or multiplicity): member-identical states with the
same replay marker send identical frames and end member-identical. -/
theorem subscribeOne_mem_congr (st1 st2 : WsState) (e : String)
    (hinit : st1.initialConnection = st2.initialConnection)
    (hm : ∀ x, x ∈ st1.wsEvents ↔ x ∈ st2.wsEvents) :
    (subscribeOne st1 e).2 = (subscribeOne st2 e).2
    ∧ ∀ x, x ∈ (subscribeOne st1 e).1.wsEvents ↔ x ∈ (subscribeOne st2 e).1.wsEvents := by
  have hce : st1.wsEvents.contains e = st2.wsEvents.contains e :=
    contains_congr _ _ hm e
  have hct : st1.wsEvents.contains (topicOf e) = st2.wsEvents.contains (topicOf e) :=
    contains_congr _ _ hm (topicOf e)
  have hmu : ∀ x, x ∈ (maybeUnion st1 e).wsEvents ↔ x ∈ (maybeUnion st2 e).wsEvents := by
    intro x
    unfold maybeUnion
    rw [hinit]
    split
    · exact hm x
    · simp only [mem_lodashUnion]
      rw [hm x]
  unfold subscribeOne
  rw [hce, hct, hinit]
  repeat' split
  all_goals first
    | exact ⟨rfl, hmu⟩
    | exact ⟨rfl, hm⟩

/-- The subscribe loop is determined by the desired set's members. -/
theorem subscribeList_mem_congr (es : List String) : ∀ st1 st2 : WsState,
    st1.initialConnection = st2.initialConnection →
    (∀ x, x ∈ st1.wsEvents ↔ x ∈ st2.wsEvents) →
    (subscribeList st1 es).2 = (subscribeList st2 es).2
    ∧ ∀ x, x ∈ (subscribeList st1 es).1.wsEvents ↔ x ∈ (subscribeList st2 es).1.wsEvents := by
  induction es with
  | nil => intro st1 st2 hinit hm; exact ⟨rfl, hm⟩
  | cons e rest ih =>
    intro st1 st2 hinit hm
    obtain ⟨hf, hmem⟩ := subscribeOne_mem_congr st1 st2 e hinit hm
    have hinit2 : (subscribeOne st1 e).1.initialConnection
        = (subscribeOne st2 e).1.initialConnection := by
      rw [subscribeOne_keeps_initial, subscribeOne_keeps_initial, hinit]
    obtain ⟨hf2, hmem2⟩ := ih (subscribeOne st1 e).1 (subscribeOne st2 e).1 hinit2 hmem
    constructor
    · show (subscribeOne st1 e).2 ++ (subscribeList (subscribeOne st1 e).1 rest).2
        = (subscribeOne st2 e).2 ++ (subscribeList (subscribeOne st2 e).1 rest).2
      rw [hf, hf2]
    · exact hmem2

/-- One unsubscribe iteration is determined by the desired set's
members: member-identical states send identical frames and end
member-identical. -/
theorem unsubscribeOne_mem_congr (st1 st2 : WsState) (e : String)
    (hm : ∀ x, x ∈ st1.wsEvents ↔ x ∈ st2.wsEvents) :
    (unsubscribeOne st1 e).2 = (unsubscribeOne st2 e).2
    ∧ ∀ x, x ∈ (unsubscribeOne st1 e).1.wsEvents ↔ x ∈ (unsubscribeOne st2 e).1.wsEvents := by
  have hce : st1.wsEvents.contains e = st2.wsEvents.contains e :=
    contains_congr _ _ hm e
  have hflt : ∀ x, x ∈ st1.wsEvents.filter (fun y => y != e)
      ↔ x ∈ st2.wsEvents.filter (fun y => y != e) := by
    intro x
    simp only [List.mem_filter]
    rw [hm x]
  unfold unsubscribeOne
  rw [hce]
  repeat' split
  all_goals first
    | exact ⟨rfl, hflt⟩
    | exact ⟨rfl, hm⟩

/-- The unsubscribe loop is determined by the desired set's members. -/
theorem unsubscribeList_mem_congr (es : List String) : ∀ st1 st2 : WsState,
    (∀ x, x ∈ st1.wsEvents ↔ x ∈ st2.wsEvents) →
    (unsubscribeList st1 es).2 = (unsubscribeList st2 es).2
    ∧ ∀ x, x ∈ (unsubscribeList st1 es).1.wsEvents
        ↔ x ∈ (unsubscribeList st2 es).1.wsEvents := by
  induction es with
  | nil => intro st1 st2 hm; exact ⟨rfl, hm⟩
  | cons e rest ih =>
    intro st1 st2 hm
    obtain ⟨hf, hmem⟩ := unsubscribeOne_mem_congr st1 st2 e hm
    obtain ⟨hf2, hmem2⟩ := ih (unsubscribeOne st1 e).1 (unsubscribeOne st2 e).1 hmem
    constructor
    · show (unsubscribeOne st1 e).2 ++ (unsubscribeList (unsubscribeOne st1 e).1 rest).2
        = (unsubscribeOne st2 e).2 ++ (unsubscribeList (unsubscribeOne st2 e).1 rest).2
      rw [hf, hf2]
    · exact hmem2

/-! ## Claims -/

/-- C1: for every signed request with method `m`, path `p`, optional
params and optional body, at a fixed current time `now`, the emitted
signature equals the HMAC (keyed by the configured secret) of the
concatenation of the upper-cased method, the canonical full URL (base
URL + path + query string when params are present), the expiry, and the
JSON serialization of the body (empty string when the body is absent);
the expiry equals `now` + the configured validity window, is computed
exactly once per call, and the identical value appears both inside the
signed string and in the emitted `api-expires` header. -/
theorem C1_signature_and_expiry (hmac : String → String → String)
    (cfg : ClientConfig) (now : Int) (rq : RequestConfig) :
    (generateAuthHeaders hmac cfg now rq).apiSignature
      = hmac cfg.secret
          (methodUpper rq.method ++ getFullUrl cfg rq.path rq.params
            ++ toString (now + cfg.expires) ++ rq.data.getD "")
    ∧ (generateAuthHeaders hmac cfg now rq).apiExpires = now + cfg.expires
    ∧ getFullUrl cfg rq.path rq.params
        = (if strIncludes rq.path "/stream" then wsUrl cfg else cfg.apiUrl) ++ rq.path ++
            (match rq.params with
             | some ps => qsAddPrefix (qsStringify (mapKeysSnake ps))
             | none => "") :=
  ⟨rfl, rfl, rfl⟩

/-- C2 (code-bug evidence): for `cancelOrders` the canonical URL over
which the signature is computed is built from path `/order/all`, while
the HTTP DELETE request is actually sent to path `/order`; at the
default configuration with `symbol = "btc-usdt"` the two URL strings
differ, so the signed string can never match the sent request. -/
theorem C2_cancelOrders_signed_vs_sent :
    cancelOrdersSignedUrl defaultCfg (some "btc-usdt")
        = "https://api.hollaex.com/v2/order/all?symbol=btc-usdt"
    ∧ cancelOrdersSentUrl defaultCfg (some "btc-usdt")
        = "https://api.hollaex.com/v2/order?symbol=btc-usdt"
    ∧ cancelOrdersSignedUrl defaultCfg (some "btc-usdt")
        ≠ cancelOrdersSentUrl defaultCfg (some "btc-usdt") := by
  refine ⟨by decide, by decide, by decide⟩

/-- C4: every parameter key is snake-cased before serialization; a
parameter whose value is `undefined` is omitted from the query string
while every defined value (including `0`, the empty string and `false`)
is preserved; and an absent params argument appends no query-string
segment. -/
theorem C4_getFullUrl_params (cfg : ClientConfig) (path k : String)
    (ps : QueryParams) (v : JsVal) :
    getFullUrl cfg path none
        = (if strIncludes path "/stream" then wsUrl cfg else cfg.apiUrl) ++ path
    ∧ getFullUrl cfg path (some ps)
        = (if strIncludes path "/stream" then wsUrl cfg else cfg.apiUrl) ++ path
            ++ qsAddPrefix (qsStringify (ps.map (fun p => (snakeCase p.1, p.2))))
    ∧ qsStringify (ps.filter (fun p => p.2.isSome)) = qsStringify ps
    ∧ qsStringify [(k, some v)] = pctEncode k ++ "=" ++ pctEncode (jsValToString v)
    ∧ qsStringify [(k, none)] = ""
    ∧ jsValToString (JsVal.num 0) = "0"
    ∧ jsValToString (JsVal.str "") = ""
    ∧ jsValToString (JsVal.bool false) = "false"
    ∧ snakeCase "startDate" = "start_date"
    ∧ snakeCase "transactionId" = "transaction_id" := by
  refine ⟨?_, rfl, qsStringify_filter_defined ps, rfl, rfl, rfl, rfl, rfl,
    by decide, by decide⟩
  show (if strIncludes path "/stream" then wsUrl cfg else cfg.apiUrl) ++ path ++ "" = _
  exact str_append_empty _

/-- C7: whenever the session is not in the open state, each of
`subscribe`, `unsubscribe` and `disconnect` throws the not-connected
error synchronously; the thrown call performs no state mutation (in the
source the connectivity guard precedes every mutation, so the session
state and the desired subscription set are unchanged). -/
theorem C7_not_open_errors (st : WsState) (es es2 : List String)
    (h : st.connected = false) :
    subscribe st es = .error .notConnected
    ∧ unsubscribe st es2 = .error .notConnected
    ∧ disconnect st = .error .notConnected := by
  simp [subscribe, unsubscribe, disconnect, h]

/-- Witness for C7 at a concrete disconnected session. -/
theorem C7_not_open_errors_witness :
    (⟨["wallet"], true, false, false⟩ : WsState).connected = false
    ∧ (subscribe ⟨["wallet"], true, false, false⟩ ["orderbook"] = .error .notConnected
       ∧ unsubscribe ⟨["wallet"], true, false, false⟩ ["wallet"] = .error .notConnected
       ∧ disconnect ⟨["wallet"], true, false, false⟩ = .error .notConnected) :=
  ⟨rfl, C7_not_open_errors ⟨["wallet"], true, false, false⟩ ["orderbook"] ["wallet"] rfl⟩

/-- C10: after `disconnect()` on an open session the reconnect flag is
cleared, the subsequent close event discards the socket without
scheduling a reconnect timer (so the session never reconnects on its
own), and a later explicit `wsConnect` sets the reconnect flag back to
true for the new connection. -/
theorem C10_disconnect_disables_reconnect (st : WsState) (h : st.connected = true) :
    disconnect st = .ok { st with wsReconnect := false }
    ∧ (onClose { st with wsReconnect := false }).2 = false
    ∧ (onClose { st with wsReconnect := false }).1
        = { st with wsReconnect := false, connected := false }
    ∧ ∀ es : List String,
        (wsConnectStep (onClose { st with wsReconnect := false }).1 es).wsReconnect = true := by
  refine ⟨by simp [disconnect, h], rfl, rfl, fun es => rfl⟩

/-- Witness for C10 at a concrete open session. -/
theorem C10_disconnect_disables_reconnect_witness :
    (⟨["wallet"], true, false, true⟩ : WsState).connected = true
    ∧ (disconnect ⟨["wallet"], true, false, true⟩ = .ok ⟨["wallet"], false, false, true⟩
       ∧ (onClose ⟨["wallet"], false, false, true⟩).2 = false
       ∧ (onClose ⟨["wallet"], false, false, true⟩).1 = ⟨["wallet"], false, false, false⟩
       ∧ ∀ es : List String,
           (wsConnectStep (onClose ⟨["wallet"], false, false, true⟩).1 es).wsReconnect = true) :=
  ⟨rfl, C10_disconnect_disables_reconnect ⟨["wallet"], true, false, true⟩ rfl⟩

/-- C3 (counterexample): "exactly one subscribe frame is sent for each
desired topic" fails.  From an open session, subscribing
`orderbook:BTC-USDT` and then `orderbook` (both frames sent, both
entries desired) and losing the connection, the replay after the
reconnect sends one frame for `orderbook` and none at all for the
still-desired `orderbook:BTC-USDT`. -/
theorem C3_replay_counterexample :
    subscribe ⟨[], true, false, true⟩ ["orderbook:BTC-USDT"]
        = .ok (⟨["orderbook:BTC-USDT"], true, false, true⟩,
            [⟨"subscribe", ["orderbook:BTC-USDT"]⟩])
    ∧ subscribe ⟨["orderbook:BTC-USDT"], true, false, true⟩ ["orderbook"]
        = .ok (⟨["orderbook:BTC-USDT", "orderbook"], true, false, true⟩,
            [⟨"subscribe", ["orderbook"]⟩])
    ∧ "orderbook:BTC-USDT"
        ∈ (⟨["orderbook:BTC-USDT", "orderbook"], true, false, true⟩ : WsState).wsEvents
    ∧ (reconnectReplay ⟨["orderbook:BTC-USDT", "orderbook"], true, false, true⟩).2
        = [⟨"subscribe", ["orderbook"]⟩]
    ∧ (reconnectReplay ⟨["orderbook:BTC-USDT", "orderbook"], true, false, true⟩).2.filter
          (fun f => f.args.contains "orderbook:BTC-USDT") = [] := by
  refine ⟨rfl, rfl, by decide, by decide, by decide⟩

/-- C3 (amended): a desired subscription set held when a connection is
lost (with automatic reconnection enabled) is not cleared by the
disconnect, and after the next connection opens the replay sends the
frames `replayFrames` describes — at most one subscribe frame per
desired entry, exactly one for each eligible entry, where a
symbol-scoped market topic is suppressed when its unscoped topic is
also desired and unrecognized names send nothing; for the desired set
`[orderbook:BTC-USDT]` exactly one frame is sent for that topic with no
duplicate. -/
theorem C3_replay_after_reconnect (st : WsState) (h : st.wsReconnect = true) :
    (onClose st).1.wsEvents = st.wsEvents
    ∧ (onClose st).2 = true
    ∧ (reconnectReplay st).1.wsEvents = st.wsEvents
    ∧ (reconnectReplay st).2
        = List.flatten (st.wsEvents.map (replayFrames st.wsEvents)) := by
  have key : reconnectReplay st
      = ({ wsEvents := st.wsEvents, wsReconnect := true, initialConnection := false,
            connected := true },
          List.flatten (st.wsEvents.map (replayFrames st.wsEvents))) := by
    show onOpen ⟨st.wsEvents, true, true, false⟩ = _
    cases hes : st.wsEvents with
    | nil => rfl
    | cons a rest =>
      have hi := subscribeList_initial ⟨a :: rest, true, true, true⟩ rfl (a :: rest)
      simp [onOpen, hi]
  exact ⟨rfl, by simp [onClose, h], by rw [key], by rw [key]⟩

/-- Witness for C3 at the canonical desired set `[orderbook:BTC-USDT]`:
the set survives the disconnect and the replay sends exactly one frame
for the topic. -/
theorem C3_replay_after_reconnect_witness :
    (⟨["orderbook:BTC-USDT"], true, false, true⟩ : WsState).wsReconnect = true
    ∧ (reconnectReplay ⟨["orderbook:BTC-USDT"], true, false, true⟩).1.wsEvents
        = ["orderbook:BTC-USDT"]
    ∧ (reconnectReplay ⟨["orderbook:BTC-USDT"], true, false, true⟩).2
        = [⟨"subscribe", ["orderbook:BTC-USDT"]⟩] :=
  ⟨rfl,
    (C3_replay_after_reconnect ⟨["orderbook:BTC-USDT"], true, false, true⟩ rfl).2.2.1,
    ((C3_replay_after_reconnect ⟨["orderbook:BTC-USDT"], true, false, true⟩ rfl).2.2.2).trans
      (by decide)⟩

/-- C5: while an unscoped market-scoped topic subscription is in the
desired set, a symbol-narrowed subscribe request for the same topic
sends no frame and changes nothing; in particular, from an empty
desired set, `subscribe(["orderbook"])` then
`subscribe(["orderbook:BTC-USDT"])` sends exactly one wire frame in
total (the unscoped one) and the second call sends none. -/
theorem C5_unscoped_suppresses_scoped (st : WsState) (e s : String)
    (hconn : st.connected = true)
    (htopic : topicOf e = "orderbook" ∨ topicOf e = "trade")
    (hsym : truthySymbol e = some s)
    (hmem : st.wsEvents.contains (topicOf e) = true) :
    subscribe st [e] = .ok (st, [])
    ∧ subscribe ⟨[], true, false, true⟩ ["orderbook"]
        = .ok (⟨["orderbook"], true, false, true⟩, [⟨"subscribe", ["orderbook"]⟩])
    ∧ subscribe ⟨["orderbook"], true, false, true⟩ ["orderbook:BTC-USDT"]
        = .ok (⟨["orderbook"], true, false, true⟩, []) := by
  have h1 : subscribeOne st e = (st, []) := by
    have hm : topicOf e ∈ st.wsEvents := by simpa using hmem
    rcases htopic with h2 | h2 <;> rw [h2] at hm <;>
      unfold subscribeOne <;> split <;>
        simp [h2, hsym, hm]
  refine ⟨?_, rfl, rfl⟩
  simp [subscribe, hconn, subscribeList, h1]

/-- Witness for C5 at the concrete suppression instance. -/
theorem C5_unscoped_suppresses_scoped_witness :
    ((⟨["orderbook"], true, false, true⟩ : WsState).connected = true
      ∧ (topicOf "orderbook:BTC-USDT" = "orderbook"
          ∨ topicOf "orderbook:BTC-USDT" = "trade")
      ∧ truthySymbol "orderbook:BTC-USDT" = some "BTC-USDT"
      ∧ (⟨["orderbook"], true, false, true⟩ : WsState).wsEvents.contains
          (topicOf "orderbook:BTC-USDT") = true)
    ∧ subscribe ⟨["orderbook"], true, false, true⟩ ["orderbook:BTC-USDT"]
        = .ok (⟨["orderbook"], true, false, true⟩, []) :=
  ⟨⟨rfl, Or.inl (by decide), by decide, by decide⟩,
    (C5_unscoped_suppresses_scoped ⟨["orderbook"], true, false, true⟩
      "orderbook:BTC-USDT" "BTC-USDT" rfl (Or.inl (by decide)) (by decide) (by decide)).1⟩

/-- C6: for every connected session and every topic of the protocol
passed to `unsubscribe` (the data model's topics are `orderbook`,
`trade`, `order`, `wallet`, `deposit`, optionally symbol-scoped): a
wire frame is sent if and only if the entry is present in the desired
set; whenever it is present it is removed from the desired set
(fire-and-forget, regardless of wire outcome); and when it was never
subscribed no frame is sent and the desired set is unchanged. -/
theorem C6_unsubscribe_iff_present (st : WsState) (e : String)
    (hconn : st.connected = true)
    (hk : knownTopic (topicOf e) = true) :
    (st.wsEvents.contains e = true →
      unsubscribe st [e]
        = .ok ({ st with wsEvents := st.wsEvents.filter (fun x => x != e) },
            [unsubFrameFor e]))
    ∧ (st.wsEvents.contains e = false → unsubscribe st [e] = .ok (st, [])) := by
  simp only [knownTopic, Bool.or_eq_true, decide_eq_true_eq] at hk
  constructor
  · intro hmem
    have h1 : unsubscribeOne st e
        = ({ st with wsEvents := st.wsEvents.filter (fun x => x != e) },
            [unsubFrameFor e]) := by
      cases htr : truthySymbol e <;>
        unfold unsubscribeOne unsubFrameFor <;>
          rw [if_pos hmem] <;>
            rcases hk with (((h2 | h2) | h2) | h2) | h2 <;>
              simp [h2, htr]
    simp [unsubscribe, hconn, unsubscribeList, h1]
  · intro hmem
    have h1 : unsubscribeOne st e = (st, []) := by
      unfold unsubscribeOne
      rw [if_neg (by rw [hmem]; simp)]
    simp [unsubscribe, hconn, unsubscribeList, h1]

/-- Witness for C6: both directions at concrete sessions — a present
`wallet` entry is removed with exactly one frame, and unsubscribing
`wallet` when it was never subscribed sends no frame and leaves the
set unchanged. -/
theorem C6_unsubscribe_iff_present_witness :
    ((⟨["wallet"], true, false, true⟩ : WsState).connected = true
      ∧ knownTopic (topicOf "wallet") = true)
    ∧ unsubscribe ⟨["wallet"], true, false, true⟩ ["wallet"]
        = .ok (⟨[], true, false, true⟩, [⟨"unsubscribe", ["wallet"]⟩])
    ∧ unsubscribe ⟨["orderbook"], true, false, true⟩ ["wallet"]
        = .ok (⟨["orderbook"], true, false, true⟩, []) :=
  ⟨⟨rfl, by decide⟩,
    ((C6_unsubscribe_iff_present ⟨["wallet"], true, false, true⟩ "wallet"
        rfl (by decide)).1 (by decide)).trans rfl,
    (C6_unsubscribe_iff_present ⟨["orderbook"], true, false, true⟩ "wallet"
        rfl (by decide)).2 (by decide)⟩

/-- C8: the streaming connection URL carries the auth query parameters
(`api-key`, `api-expires`, `api-signature`) exactly when credentials
are configured; the signature is computed with the reserved
pseudo-method `connect` (upper-cased to `CONNECT`, distinct from the
four HTTP methods) over the streaming path through the same signing
scheme as REST. -/
theorem C8_wsConnect_auth_query (hmac : String → String → String)
    (cfg : ClientConfig) (now : Int) :
    (hasCredentials cfg = true →
      wsConnectUrl hmac cfg now
        = wsUrl cfg ++ "?" ++ qsAddPrefix (qsStringify (authHeaderParams
            (generateAuthHeaders hmac cfg now ⟨Method.connect, "/stream", none, none⟩))))
    ∧ (hasCredentials cfg = false → wsConnectUrl hmac cfg now = wsUrl cfg)
    ∧ (generateAuthHeaders hmac cfg now
          ⟨Method.connect, "/stream", none, none⟩).apiSignature
        = hmac cfg.secret
            ("CONNECT" ++ (wsUrl cfg ++ "/stream") ++ toString (now + cfg.expires))
    ∧ methodUpper Method.connect = "CONNECT"
    ∧ methodUpper Method.connect ≠ methodUpper Method.get
    ∧ methodUpper Method.connect ≠ methodUpper Method.post
    ∧ methodUpper Method.connect ≠ methodUpper Method.put
    ∧ methodUpper Method.connect ≠ methodUpper Method.delete := by
  have hfull : getFullUrl cfg "/stream" none = wsUrl cfg ++ "/stream" := by
    have hinc : strIncludes "/stream" "/stream" = true := by decide
    simp [getFullUrl, hinc, str_append_empty]
  refine ⟨?_, ?_, ?_, rfl, by decide, by decide, by decide, by decide⟩
  · intro hc
    simp [wsConnectUrl, hc]
  · intro hc
    simp [wsConnectUrl, hc]
  · show hmac cfg.secret (methodUpper Method.connect ++ getFullUrl cfg "/stream" none
        ++ toString (now + cfg.expires) ++ "") = _
    rw [hfull, str_append_empty]
    rfl

/-- Witness for C8 at a concrete configuration with credentials. -/
theorem C8_wsConnect_auth_query_witness :
    hasCredentials (mkClient none (some "K") (some "S") none) = true
    ∧ ((hasCredentials (mkClient none (some "K") (some "S") none) = true →
        wsConnectUrl (fun s m => s ++ "|" ++ m) (mkClient none (some "K") (some "S") none) 100
          = wsUrl (mkClient none (some "K") (some "S") none) ++ "?"
            ++ qsAddPrefix (qsStringify (authHeaderParams
              (generateAuthHeaders (fun s m => s ++ "|" ++ m)
                (mkClient none (some "K") (some "S") none) 100
                ⟨Method.connect, "/stream", none, none⟩))))) :=
  ⟨by decide,
    (C8_wsConnect_auth_query (fun s m => s ++ "|" ++ m)
      (mkClient none (some "K") (some "S") none) 100).1⟩

/-- C9 (counterexample): the desired set is not a set of
(topic, symbol-or-absent) identities under every mutating operation.
First, `subscribe(["orderbook:"])` while `orderbook` is already desired
stores a second entry with the same (orderbook, no-symbol) identity —
the empty symbol is falsy, so both entries have topic `orderbook` and
no truthy symbol — and re-sends the `orderbook` subscribe frame.
Second, `wsConnect(["wallet","wallet"])` stores the caller's list
verbatim, so even the literal string `wallet` occurs twice and the
replay on open sends two identical frames. -/
theorem C9_duplicates_counterexample :
    subscribe ⟨["orderbook"], true, false, true⟩ ["orderbook:"]
        = .ok (⟨["orderbook", "orderbook:"], true, false, true⟩,
            [⟨"subscribe", ["orderbook"]⟩])
    ∧ topicOf "orderbook:" = topicOf "orderbook"
    ∧ truthySymbol "orderbook:" = truthySymbol "orderbook"
    ∧ (wsConnectStep ⟨[], true, false, false⟩ ["wallet", "wallet"]).wsEvents
        = ["wallet", "wallet"]
    ∧ ¬ (wsConnectStep ⟨[], true, false, false⟩ ["wallet", "wallet"]).wsEvents.Nodup
    ∧ (onOpen (wsConnectStep ⟨[], true, false, false⟩ ["wallet", "wallet"])).2
        = [⟨"subscribe", ["wallet"]⟩, ⟨"subscribe", ["wallet"]⟩] := by
  refine ⟨rfl, by decide, by decide, by decide, by decide, by decide⟩

/-- C9 (amended): under `subscribe` and `unsubscribe` the desired
subscription set behaves as a mathematical set of the raw event
strings: the order of its elements is irrelevant to behavior — two
desired sets with the same members (and the same replay marker) make
the operations send identical wire frames and produce member-identical
resulting sets — and duplicate entries collapse to one (`subscribe`
adds through a deduplicating union, `unsubscribe` removes every copy
by filtering), so starting from a duplicate-free set no event string
ever occurs twice.  The identity is the raw string, not the pair
(topic, symbol-or-absent), and `connect` collapses nothing: see the
counterexample for both failures of the original claim. -/
theorem C9_set_behavior (st st1 st2 : WsState) (es : List String)
    (h : st.wsEvents.Nodup)
    (hinit : st1.initialConnection = st2.initialConnection)
    (hm : ∀ x, x ∈ st1.wsEvents ↔ x ∈ st2.wsEvents) :
    (∀ r : WsState × List Frame, subscribe st es = .ok r → r.1.wsEvents.Nodup)
    ∧ (∀ r : WsState × List Frame, unsubscribe st es = .ok r → r.1.wsEvents.Nodup)
    ∧ (∀ r1 r2 : WsState × List Frame,
        subscribe st1 es = .ok r1 → subscribe st2 es = .ok r2 →
          r1.2 = r2.2 ∧ ∀ x, x ∈ r1.1.wsEvents ↔ x ∈ r2.1.wsEvents)
    ∧ (∀ r1 r2 : WsState × List Frame,
        unsubscribe st1 es = .ok r1 → unsubscribe st2 es = .ok r2 →
          r1.2 = r2.2 ∧ ∀ x, x ∈ r1.1.wsEvents ↔ x ∈ r2.1.wsEvents) := by
  refine ⟨?_, ?_, ?_, ?_⟩
  · intro r hok
    unfold subscribe at hok
    split at hok
    · have h2 := Except.ok.inj hok
      have h3 := subscribeList_fst_nodup es st h
      rw [h2] at h3
      exact h3
    · exact absurd hok (by simp)
  · intro r hok
    unfold unsubscribe at hok
    split at hok
    · have h2 := Except.ok.inj hok
      have h3 := unsubscribeList_fst_nodup es st h
      rw [h2] at h3
      exact h3
    · exact absurd hok (by simp)
  · intro r1 r2 h1 h2
    unfold subscribe at h1 h2
    split at h1
    · split at h2
      · obtain ⟨hf, hmem⟩ := subscribeList_mem_congr es st1 st2 hinit hm
        have e1 := Except.ok.inj h1
        have e2 := Except.ok.inj h2
        rw [← e1, ← e2]
        exact ⟨hf, hmem⟩
      · exact absurd h2 (by simp)
    · exact absurd h1 (by simp)
  · intro r1 r2 h1 h2
    unfold unsubscribe at h1 h2
    split at h1
    · split at h2
      · obtain ⟨hf, hmem⟩ := unsubscribeList_mem_congr es st1 st2 hm
        have e1 := Except.ok.inj h1
        have e2 := Except.ok.inj h2
        rw [← e1, ← e2]
        exact ⟨hf, hmem⟩
      · exact absurd h2 (by simp)
    · exact absurd h1 (by simp)

/-- Witness for C9 (amended), every branch exercised with a true
antecedent: from the duplicate-free desired set `[wallet]`, the
subscribe call that really returns `.ok` keeps the set duplicate-free,
and so does the unsubscribe call that really returns `.ok`; and the two
member-identical (order-swapped) desired sets `[wallet, orderbook]` and
`[orderbook, wallet]` give the same unsubscribe frames and
member-identical results. -/
theorem C9_set_behavior_witness :
    ((["wallet"] : List String).Nodup
      ∧ (⟨["wallet", "orderbook"], true, false, true⟩ : WsState).initialConnection
          = (⟨["orderbook", "wallet"], true, false, true⟩ : WsState).initialConnection
      ∧ (∀ x, x ∈ (⟨["wallet", "orderbook"], true, false, true⟩ : WsState).wsEvents
          ↔ x ∈ (⟨["orderbook", "wallet"], true, false, true⟩ : WsState).wsEvents))
    ∧ subscribe ⟨["wallet"], true, false, true⟩ ["orderbook"]
        = .ok (⟨["wallet", "orderbook"], true, false, true⟩,
            [⟨"subscribe", ["orderbook"]⟩])
    ∧ unsubscribe ⟨["wallet"], true, false, true⟩ ["orderbook"]
        = .ok (⟨["wallet"], true, false, true⟩, [])
    ∧ (⟨["wallet", "orderbook"], true, false, true⟩ : WsState).wsEvents.Nodup
    ∧ (⟨["wallet"], true, false, true⟩ : WsState).wsEvents.Nodup
    ∧ unsubscribe ⟨["wallet", "orderbook"], true, false, true⟩ ["orderbook"]
        = .ok (⟨["wallet"], true, false, true⟩, [⟨"unsubscribe", ["orderbook"]⟩])
    ∧ unsubscribe ⟨["orderbook", "wallet"], true, false, true⟩ ["orderbook"]
        = .ok (⟨["wallet"], true, false, true⟩, [⟨"unsubscribe", ["orderbook"]⟩])
    ∧ ([(⟨"unsubscribe", ["orderbook"]⟩ : Frame)] = [(⟨"unsubscribe", ["orderbook"]⟩ : Frame)]
        ∧ ∀ x : String, x ∈ (["wallet"] : List String) ↔ x ∈ (["wallet"] : List String)) :=
  ⟨⟨by decide, rfl, fun x => (List.Perm.swap "orderbook" "wallet" []).mem_iff⟩,
    rfl,
    rfl,
    (C9_set_behavior ⟨["wallet"], true, false, true⟩
        ⟨["wallet", "orderbook"], true, false, true⟩
        ⟨["orderbook", "wallet"], true, false, true⟩ ["orderbook"] (by decide) rfl
        (fun x => (List.Perm.swap "orderbook" "wallet" []).mem_iff)).1
      (⟨["wallet", "orderbook"], true, false, true⟩, [⟨"subscribe", ["orderbook"]⟩]) rfl,
    (C9_set_behavior ⟨["wallet"], true, false, true⟩
        ⟨["wallet", "orderbook"], true, false, true⟩
        ⟨["orderbook", "wallet"], true, false, true⟩ ["orderbook"] (by decide) rfl
        (fun x => (List.Perm.swap "orderbook" "wallet" []).mem_iff)).2.1
      (⟨["wallet"], true, false, true⟩, []) rfl,
    rfl,
    rfl,
    (C9_set_behavior ⟨["wallet"], true, false, true⟩
        ⟨["wallet", "orderbook"], true, false, true⟩
        ⟨["orderbook", "wallet"], true, false, true⟩ ["orderbook"] (by decide) rfl
        (fun x => (List.Perm.swap "orderbook" "wallet" []).mem_iff)).2.2.2
      (⟨["wallet"], true, false, true⟩, [⟨"unsubscribe", ["orderbook"]⟩])
      (⟨["wallet"], true, false, true⟩, [⟨"unsubscribe", ["orderbook"]⟩]) rfl rfl⟩

end Hollaex
